import Mathlib

/-!
Shallow embedding of `src/lib/moodleWSClient.js` (the `MoodleWSClient` class
and its validation constraint table `vpCons`), together with the parts of the
external validation library behaviour the class relies on (validate.js format
semantics: a `format` regex must cover the whole value; `defaultWhenEmpty`
substitutes the default for undefined / whitespace-only values; coercion runs
before the checks; parameters are validated in declaration order, fail-fast).

JavaScript values are modelled as follows: strings are `String`, numbers that
matter are `Int`, `undefined` is `Option.none` (or `JSVal.undefinedV` inside query
maps), a JS plain object used as a map is an association list without
duplicate keys, and the mutable caller-supplied options object of the
constructor is modelled through an explicit heap of option records.
-/

/-- A JavaScript value that can appear in a query-string map. -/
inductive JSVal where
  | str (s : String)
  | num (n : Int)
  | boolV (b : Bool)
  | undefinedV
deriving DecidableEq, Repr

/-- A JS plain object used as a string-keyed map (insertion ordered). -/
abbrev ObjMap := List (String × JSVal)

/-- Property read `o[k]`: the first binding of `k`, if any. -/
def getKey : ObjMap → String → Option JSVal
  | [], _ => none
  | (k, v) :: rest, q => if k = q then some v else getKey rest q

/-- Property write `o[k] = x`: overwrite in place, or append a new binding. -/
def setKey : ObjMap → String → JSVal → ObjMap
  | [], q, x => [(q, x)]
  | (k, v) :: rest, q, x => if k = q then (k, x) :: rest else (k, v) :: setKey rest q x

/-- `for(let param in ps){ m[param] = ps[param]; }` — copy every binding of
`ps` into `m`, in insertion order. -/
def mergeInto (m : ObjMap) (ps : ObjMap) : ObjMap :=
  ps.foldl (fun acc kv => setKey acc kv.1 kv.2) m

/-- A well-formed image of a JS object: no key is bound twice. -/
def noDupKeys : ObjMap → Bool
  | [] => true
  | (k, _) :: rest => !(rest.any (fun kv => kv.1 == k)) && noDupKeys rest

/-- The validation failure taxonomy (spec §7): the structured error raised by
the validation layer, tagged by which parameter / rule failed. -/
inductive VErr where
  | missingParameter (p : String)
  | invalidUrl
  | invalidToken
  | invalidFormat (p : String)
  | invalidDuration
deriving DecidableEq, Repr

/-- `MOODLE_API_PATH` from line 133 of the source. -/
def MOODLE_API_PATH : String := "webservice/rest/server.php"

/-- JS string suffix test, expressed character-wise. -/
def strEndsWith (s suf : String) : Bool := List.isSuffixOf suf.data s.data

/-- validate.js `isEmpty` on strings: true for whitespace-only strings
(including the empty string). -/
def isEmptyString (s : String) : Bool := s.data.all (fun c => c.isWhitespace)

/-- Character class `[a-z0-9]` of the token pattern. -/
def isLowerAlnumChar (c : Char) : Bool :=
  (decide ('a' ≤ c) && decide (c ≤ 'z')) || (decide ('0' ≤ c) && decide (c ≤ '9'))

/-- The token `format` constraint: pattern `"[a-z0-9]{32}"`, which under
validate.js format semantics (the match must cover the whole value) accepts
exactly the strings of length 32 whose characters are all in `[a-z0-9]`. -/
def tokenFormat (s : String) : Bool :=
  decide (s.length = 32) && s.data.all isLowerAlnumChar

/-- `vpCons.httpMethod` coercion: `v.toUpperCase()` on strings (character-wise
ASCII upper-casing). -/
def httpMethodCoerce (s : String) : String := String.mk (s.data.map Char.toUpper)

/-- `vpCons.httpMethod` format `/GET|POST|PUT/`: under validate.js full-cover
semantics the value must equal one of the three literals. -/
def httpMethodFormat (s : String) : Bool := s == "GET" || s == "POST" || s == "PUT"

/-- `vpCons.wsDataFormat` coercion: `v.toLowerCase()` on strings. -/
def wsDataFormatCoerce (s : String) : String := String.mk (s.data.map Char.toLower)

/-- `vpCons.wsDataFormat` format `/json|xml/` under full-cover semantics. -/
def wsDataFormatFormat (s : String) : Bool := s == "json" || s == "xml"

/-- Character class `[a-z_]` of the function-name pattern. -/
def isWsFnChar (c : Char) : Bool :=
  (decide ('a' ≤ c) && decide (c ≤ 'z')) || c == '_'

/-- `vpCons.wsFunctionName` coercion: `v.toLowerCase()` on strings. -/
def wsFunctionNameCoerce (s : String) : String := String.mk (s.data.map Char.toLower)

/-- `vpCons.wsFunctionName` format `/[a-z_]+/` under full-cover semantics:
nonempty and every character in `[a-z_]`. -/
def wsFunctionNameFormat (s : String) : Bool :=
  (!s.data.isEmpty) && s.data.all isWsFnChar

/-- Character class `[a-zA-Z_]` of the `jsMethodName` pattern. -/
def isJsMethodChar (c : Char) : Bool :=
  (decide ('a' ≤ c) && decide (c ≤ 'z')) || (decide ('A' ≤ c) && decide (c ≤ 'Z')) || c == '_'

/-- `vpCons.jsMethodName` format `/[a-zA-Z_][a-zA-Z_]*/` under full-cover
semantics. -/
def jsMethodNameFormat (s : String) : Bool :=
  (!s.data.isEmpty) && s.data.all isJsMethodChar

/-- A timeout value as accepted by `vpCons.timeoutMS`: a raw number, the NaN
produced by numeric coercion of a non-numeric value, a moment duration object
(`moment.isDuration`), or a plain object / string duration descriptor that
`moment.duration` parses; the carried `Int` is the millisecond count
`asMilliseconds()` reports. Values `validate.isEmpty` accepts (undefined,
null, the empty object, whitespace-only strings) take the
`defaultWhenEmpty` branch instead and are modelled by an absent field. -/
inductive TimeoutVal where
  | numV (n : Int)
  | nan
  | momentDur (ms : Int)
  | descriptor (ms : Int)
deriving DecidableEq, Repr

/-- `vpCons.timeoutMS.vpopt_coerce`: a moment duration becomes its millisecond
count; a descriptor whose parsed duration is positive becomes that count,
otherwise the code falls through to numeric coercion of the raw value, which
for a plain object or a non-numeric duration string is NaN (a numeric string
parses as that same count of milliseconds, so it cannot reach the fall-through
with a different sign); numbers pass through. -/
def timeoutCoerce : TimeoutVal → TimeoutVal
  | .momentDur ms => .numV ms
  | .descriptor ms => if 0 < ms then .numV ms else .nan
  | .numV n => .numV n
  | .nan => .nan

/-- `vpCons.timeoutMS` numericality check: an integer strictly greater than
zero (integrality is inherent in the `Int` model; NaN and non-numbers fail). -/
def timeoutCheck : TimeoutVal → Bool
  | .numV n => decide (0 < n)
  | _ => false

/-- The caller-visible options object of the constructor: each field is
`none` when the corresponding property is absent (or, for `dataFormat` and
`timeout`, empty in the validate.js sense). `acceptUntrustedTLSCert` input is
modelled post-`toBoolean`. -/
structure OptionsObj where
  acceptUntrustedTLSCert : Option Bool
  dataFormat : Option String
  timeout : Option TimeoutVal
deriving DecidableEq, Repr

/-- The `defaultWhenUndefined: {}` empty options bag. -/
def emptyOptions : OptionsObj := ⟨none, none, none⟩

/-- The options coercion of the constructor (source lines 292–310): defaults
`acceptUntrustedTLSCert` to `false` when undefined, and applies the
`wsDataFormat` / `timeoutMS` coercion or `defaultWhenEmpty` value to the other
two keys. In the source this mutates the caller's object in place; the
in-place aspect is modelled by `constructClientHeap` below. -/
def coerceOptions (v : OptionsObj) : OptionsObj where
  acceptUntrustedTLSCert := some (v.acceptUntrustedTLSCert.getD false)
  dataFormat := some (match v.dataFormat with
    | some s => if isEmptyString s then "json" else wsDataFormatCoerce s
    | none => "json")
  timeout := some (match v.timeout with
    | some t => timeoutCoerce t
    | none => .numV 5000)

/-- The dictionary `mapConstraints` check on the (already coerced) options
object: presence plus the boolean / data-format / timeout checks, in
declaration order, fail-fast. -/
def checkOptions (v : OptionsObj) : Except VErr Unit :=
  match v.acceptUntrustedTLSCert with
  | none => .error (.missingParameter "acceptUntrustedTLSCert")
  | some _ =>
    match v.dataFormat with
    | none => .error (.missingParameter "dataFormat")
    | some s =>
      if wsDataFormatFormat s then
        match v.timeout with
        | none => .error (.missingParameter "timeout")
        | some t => if timeoutCheck t then .ok () else .error .invalidDuration
      else .error (.invalidFormat "dataFormat")

/-- The base-URL coercion of the constructor: append a trailing `/` to a
string that does not already end in one (`!v.match(/\/$/) ? v + '/' : v`). -/
def moodleBaseUrlCoerce (v : String) : String := if strEndsWith v "/" then v else v ++ "/"

/-- Modelled from the spec: the `url` validator is the external validate.js
library (not part of this repository); per the spec it requires the secure
`https` scheme and permits local hosts. Modelled as the scheme check with a
nonempty remainder. -/
def urlValidator (s : String) : Bool :=
  List.isPrefixOf "https://".data s.data && decide (8 < s.length)

/-- The `moodleBaseUrl` parameter: presence, the coercion, the `url`
validator, and the `/.*\//` format check (the coerced value must end in a
separator). -/
def validateBaseUrl : Option String → Except VErr String
  | none => .error (.missingParameter "moodleBaseUrl")
  | some v =>
    let v1 := moodleBaseUrlCoerce v
    if urlValidator v1 && strEndsWith v1 "/" then .ok v1 else .error .invalidUrl

/-- The `token` parameter: presence and the `"[a-z0-9]{32}"` format (no
coercion is declared for the token). -/
def validateToken : Option String → Except VErr String
  | none => .error (.missingParameter "token")
  | some t => if tokenFormat t then .ok t else .error .invalidToken

/-- The `method` parameter of `submit` / `registerShortcut`:
`presence` + `vpCons.httpMethod` — `defaultWhenEmpty: 'GET'` substitutes the
default for an absent or empty value, then the coercion upper-cases, then the
format check runs on the coerced value. -/
def validateHttpMethod (v : Option String) : Except VErr String :=
  let v0 : String := match v with
    | none => "GET"
    | some s => if isEmptyString s then "GET" else s
  let v1 := httpMethodCoerce v0
  if httpMethodFormat v1 then .ok v1 else .error (.invalidFormat "method")

/-- The `wsFunctionName` parameter: `presence` + `vpCons.wsFunctionName`
(lower-casing coercion, then the `/[a-z_]+/` format check; no default). -/
def validateWsFunctionName : Option String → Except VErr String
  | none => .error (.missingParameter "wsFunctionName")
  | some s =>
    let v1 := wsFunctionNameCoerce s
    if wsFunctionNameFormat v1 then .ok v1 else .error (.invalidFormat "wsFunctionName")

/-- The `shortcut` parameter of `registerShortcut`: `presence` +
`vpCons.jsMethodName` (the coercion is `toString`, identity on strings). -/
def validateJsMethodName : Option String → Except VErr String
  | none => .error (.missingParameter "shortcut")
  | some s => if jsMethodNameFormat s then .ok s else .error (.invalidFormat "shortcut")

/-- The constructed `MoodleWSClient` instance: the three stored fields plus
the dynamically attached shortcut methods (`this[name] = boundSubmit`),
modelled as the spec's design notes suggest by a name-to-bound-arguments map
(newest binding first, so re-registering a name shadows the old binding). -/
structure MoodleWSClient where
  _moodleUrl : String
  _token : String
  _options : OptionsObj
  shortcuts : List (String × String × String)
deriving DecidableEq, Repr

/-- The constructor (source lines 263–326): validate the base URL, the token
and the options bag in declaration order, fail-fast, then store the coerced
values. -/
def constructClient (url? token? : Option String) (opts? : Option OptionsObj) :
    Except VErr MoodleWSClient :=
  match validateBaseUrl url? with
  | .error e => .error e
  | .ok u =>
    match validateToken token? with
    | .error e => .error e
    | .ok t =>
      let o := coerceOptions (opts?.getD emptyOptions)
      match checkOptions o with
      | .error e => .error e
      | .ok _ => .ok ⟨u, t, o, []⟩

/-- `moodleUrl()` accessor. -/
def moodleUrl (c : MoodleWSClient) : String := c._moodleUrl

/-- `apiUrl()` accessor: `this._moodleUrl + MOODLE_API_PATH`. -/
def apiUrl (c : MoodleWSClient) : String := c._moodleUrl ++ MOODLE_API_PATH

/-- The value stored in the `uri` field of the request options object. The
source writes `uri: this.apiUrl`, which stores the `apiUrl` method itself —
a function value, modelled by `fnRef` — rather than the string `apiUrl()`
would have returned. -/
inductive UriVal where
  | strVal (s : String)
  | fnRef
deriving DecidableEq, Repr

/-- The request options object `reqOpts` built by `submit`
(source lines 378–391). `timeout` mirrors the JS property read
`this._options.timeout` (an `Option`, since a raw JS read of an absent
property yields undefined; after construction it is always present). -/
structure ReqOpts where
  uri : UriVal
  method : String
  qs : ObjMap
  strictSSL : Bool
  timeout : Option TimeoutVal
deriving DecidableEq, Repr

/-- A JS property read that feeds a query-string entry: an absent property
reads as undefined. -/
def jsStrField : Option String → JSVal
  | some s => .str s
  | none => .undefinedV

/-- The argument validation of `submit` (source lines 360–375): `method` via
`httpMethod`, `wsFunctionName` via `wsFunctionName`, in order, fail-fast;
`wsParameters` is a dictionary defaulted to `{}` when undefined. (The source
lists the `wsParameters` constraint twice, once with the default; the merged
effect per the spec's Validator description is a single dictionary parameter
with `defaultWhenUndefined: {}`.) -/
def submitValidate (method? fn? : Option String) (wsParameters? : Option ObjMap) :
    Except VErr (String × String × ObjMap) :=
  match validateHttpMethod method? with
  | .error e => .error e
  | .ok m =>
    match validateWsFunctionName fn? with
    | .error e => .error e
    | .ok f => .ok (m, f, wsParameters?.getD [])

/-- The `reqOpts` object `submit` builds from the validated arguments: the
fixed `wstoken` / `wsfunction` / `moodlewsrestformat` keys first, then every
caller-supplied parameter is written over the map
(`for(let param in args.wsParameters){ reqOpts.qs[param] = ... }`), so a
caller-supplied binding replaces a fixed key of the same name. `uri` holds
the `apiUrl` method itself (`uri: this.apiUrl`, no call), and
`strictSSL = !this._options.acceptUntrustedTLSCert` (JS `!undefined = true`). -/
def submitBuild (c : MoodleWSClient) (method fn : String) (wsParameters : ObjMap) : ReqOpts where
  uri := .fnRef
  method := method
  qs := mergeInto
    [("wstoken", .str c._token), ("wsfunction", .str fn),
     ("moodlewsrestformat", jsStrField c._options.dataFormat)]
    wsParameters
  strictSSL := !(c._options.acceptUntrustedTLSCert.getD false)
  timeout := c._options.timeout

/-- `submit` itself (source lines 359–392): validate the arguments, build the
request options object — and then fall off the end of the function body, which
has no return statement, so the call evaluates to undefined (`Option.none`);
the built `reqOpts` is discarded. -/
def submit (c : MoodleWSClient) (method? fn? : Option String) (wsParameters? : Option ObjMap) :
    Except VErr (Option ReqOpts) :=
  match submitValidate method? fn? wsParameters? with
  | .error e => .error e
  | .ok (m, f, p) =>
    let _reqOpts := submitBuild c m f p
    .ok none

/-- `registerShortcut` (source lines 394–409): validate the shortcut name,
method and function name, then attach `this[name] = submit.bind(this, method,
fn)` and return `this` — modelled as the instance with the new binding at the
head of its shortcut map (shadowing any earlier binding of the same name). -/
def registerShortcut (c : MoodleWSClient) (name? method? fn? : Option String) :
    Except VErr MoodleWSClient :=
  match validateJsMethodName name? with
  | .error e => .error e
  | .ok n =>
    match validateHttpMethod method? with
    | .error e => .error e
    | .ok m =>
      match validateWsFunctionName fn? with
      | .error e => .error e
      | .ok f => .ok { c with shortcuts := (n, m, f) :: c.shortcuts }

/-- Look up a dynamically attached shortcut method on the instance. -/
def getShortcut (c : MoodleWSClient) (name : String) : Option (String × String) :=
  match c.shortcuts.find? (fun e => e.1 == name) with
  | some e => some e.2
  | none => none

/-- Calling an attached shortcut: `this[name](qp)` invokes the bound
`submit(method, fn, qp)` itself — so, whenever validation passes, the call
evaluates to undefined (`.ok none`), because submit's body has no return
statement and discards the request object it builds. -/
def callShortcut (c : MoodleWSClient) (name : String) (qp : ObjMap) :
    Except VErr (Option ReqOpts) :=
  match getShortcut c name with
  | none => .error (.missingParameter name)
  | some (m, f) => submit c (some m) (some f) (some qp)

/-- A heap of option records, addressed by `Nat`, used to model the identity
of the caller-supplied mutable options object. -/
abbrev Heap := Nat → OptionsObj

/-- Write one heap cell. -/
def hUpdate (h : Heap) (r : Nat) (v : OptionsObj) : Heap :=
  fun i => if i = r then v else h i

/-- The constructed instance at the reference level: `_options` holds the
address of the very object the caller passed in (`this._options =
args.options`), not a copy. -/
structure MoodleWSClientRef where
  _moodleUrl : String
  _token : String
  _options : Nat
deriving DecidableEq, Repr

/-- The constructor acting on the heap: the options coercion writes the
defaulted / coerced keys back into the caller's object in place (the coercion
function assigns `v.acceptUntrustedTLSCert`, `v.dataFormat`, `v.timeout` and
returns the same `v`), and on success the instance stores the address of that
same object. -/
def constructClientHeap (h : Heap) (url? token? : Option String) (optsRef : Nat) :
    Except VErr MoodleWSClientRef × Heap :=
  match validateBaseUrl url? with
  | .error e => (.error e, h)
  | .ok u =>
    match validateToken token? with
    | .error e => (.error e, h)
    | .ok t =>
      let o := coerceOptions (h optsRef)
      let h1 := hUpdate h optsRef o
      match checkOptions o with
      | .error e => (.error e, h1)
      | .ok _ => (.ok ⟨u, t, optsRef⟩, h1)

/-- The dummy token of the repository's test suite. -/
def zeroToken : String := "00000000000000000000000000000000"

/-- The client of the test-suite scenario
`new MoodleWSClient('https://localhost', '000...0')`. -/
def exampleClient : MoodleWSClient :=
  ⟨"https://localhost/", zeroToken, ⟨some false, some "json", some (.numV 5000)⟩, []⟩

/-- Follows the spec's words (claim C3): a lowercase hexadecimal character. -/
def specLowerHexChar (c : Char) : Bool :=
  (decide ('0' ≤ c) && decide (c ≤ '9')) || (decide ('a' ≤ c) && decide (c ≤ 'f'))

/-- Follows the spec's words (claim C3): a string of exactly 32 lowercase
hexadecimal characters. -/
def specLowerHex32 (s : String) : Bool :=
  decide (s.length = 32) && s.data.all specLowerHexChar

/-- A 32-character token made of the letter `g`, which is not a hexadecimal
digit but lies in the `[a-z0-9]` class of the source's pattern. -/
def gToken : String := "gggggggggggggggggggggggggggggggg"

/-- The millisecond count a timeout value "resolves to" in the sense of the
spec's duration-descriptor glossary: the value `asMilliseconds()` reports for
durations and descriptors, and the number itself for raw numbers. -/
def resolvedMs : TimeoutVal → Option Int
  | .numV n => some n
  | .nan => none
  | .momentDur ms => some ms
  | .descriptor ms => some ms

/-- A concrete heap whose every cell holds an empty options object. -/
def heap0 : Heap := fun _ => emptyOptions

/-! ### Map lemmas for the query-string merge -/

theorem getKey_setKey_self (m : ObjMap) (k : String) (v : JSVal) :
    getKey (setKey m k v) k = some v := by
  induction m with
  | nil => simp [setKey, getKey]
  | cons hd tl ih =>
    by_cases h : hd.1 = k
    · simp [setKey, getKey, h]
    · simp [setKey, getKey, h, ih]

theorem getKey_setKey_ne (m : ObjMap) (k q : String) (v : JSVal) (h : k ≠ q) :
    getKey (setKey m k v) q = getKey m q := by
  induction m with
  | nil => simp [setKey, getKey, h]
  | cons hd tl ih =>
    by_cases h2 : hd.1 = k
    · simp [setKey, getKey, h2, h]
    · simp only [setKey, h2, if_false, getKey]
      by_cases h3 : hd.1 = q
      · simp [h3]
      · simp [h3, ih]

theorem getKey_none_of_not_any (m : ObjMap) (q : String)
    (h : m.any (fun kv => kv.1 == q) = false) : getKey m q = none := by
  induction m with
  | nil => rfl
  | cons hd tl ih =>
    simp only [List.any_cons, Bool.or_eq_false_iff, beq_eq_false_iff_ne] at h
    simp [getKey, h.1, ih h.2]

theorem mergeInto_cons (m : ObjMap) (k : String) (v : JSVal) (rest : ObjMap) :
    mergeInto m ((k, v) :: rest) = mergeInto (setKey m k v) rest := rfl

theorem getKey_mergeInto_of_none (ps : ObjMap) (m : ObjMap) (q : String)
    (h : getKey ps q = none) : getKey (mergeInto m ps) q = getKey m q := by
  induction ps generalizing m with
  | nil => rfl
  | cons hd tl ih =>
    rw [show hd = (hd.1, hd.2) from rfl] at h ⊢
    simp only [getKey] at h
    by_cases h2 : hd.1 = q
    · rw [if_pos h2] at h; exact absurd h (by simp)
    · rw [if_neg h2] at h
      rw [mergeInto_cons, ih _ h, getKey_setKey_ne _ _ _ _ h2]

theorem getKey_mergeInto_of_some (ps : ObjMap) (m : ObjMap) (q : String) (v : JSVal)
    (hnd : noDupKeys ps = true) (h : getKey ps q = some v) :
    getKey (mergeInto m ps) q = some v := by
  induction ps generalizing m with
  | nil => exact absurd h (by simp [getKey])
  | cons hd tl ih =>
    rw [show hd = (hd.1, hd.2) from rfl] at hnd h ⊢
    simp only [noDupKeys, Bool.and_eq_true, Bool.not_eq_true'] at hnd
    simp only [getKey] at h
    by_cases h2 : hd.1 = q
    · rw [if_pos h2] at h
      have htl : getKey tl q = none := by
        apply getKey_none_of_not_any
        rw [← h2]; exact hnd.1
      rw [mergeInto_cons, getKey_mergeInto_of_none _ _ _ htl, h2, getKey_setKey_self]
      exact h
    · rw [if_neg h2] at h
      rw [mergeInto_cons]
      exact ih _ hnd.2 h

/-! ### Constructor inversion -/

theorem constructClient_ok (url? token? : Option String) (opts? : Option OptionsObj)
    (c : MoodleWSClient) (h : constructClient url? token? opts? = .ok c) :
    validateBaseUrl url? = .ok c._moodleUrl ∧
    validateToken token? = .ok c._token ∧
    c._options = coerceOptions (opts?.getD emptyOptions) ∧
    checkOptions c._options = .ok () ∧
    c.shortcuts = [] := by
  unfold constructClient at h
  cases hu : validateBaseUrl url? with
  | error e => rw [hu] at h; exact absurd h (by simp)
  | ok u =>
    rw [hu] at h
    cases ht : validateToken token? with
    | error e => simp only [ht] at h; exact absurd h (by simp)
    | ok t =>
      simp only [ht] at h
      cases hc : checkOptions (coerceOptions (opts?.getD emptyOptions)) with
      | error e => simp only [hc] at h; exact absurd h (by simp)
      | ok unitv =>
        simp only [hc] at h
        have hceq : c = ⟨u, t, coerceOptions (opts?.getD emptyOptions), []⟩ :=
          (Except.ok.inj h).symm
        subst hceq
        cases unitv
        exact ⟨rfl, rfl, rfl, hc, rfl⟩

theorem validateBaseUrl_ok_eq (u s : String) (h : validateBaseUrl (some u) = .ok s) :
    s = moodleBaseUrlCoerce u := by
  simp only [validateBaseUrl] at h
  split at h
  · exact (Except.ok.inj h).symm
  · exact absurd h (by simp)

/-! ### Claim theorems -/

/-- C6: for every valid secure base URL that does not end in the path
separator, the constructed client's stored base URL equals the input with the
separator appended; for every valid base URL already ending in the separator,
the stored base URL equals the input unchanged. (Validity is expressed by the
construction succeeding.) -/
theorem moodle_C6_baseUrl_trailing_separator (u t : String) (opts? : Option OptionsObj)
    (c : MoodleWSClient) (h : constructClient (some u) (some t) opts? = .ok c) :
    (strEndsWith u "/" = false → c._moodleUrl = u ++ "/") ∧
    (strEndsWith u "/" = true → c._moodleUrl = u) := by
  have hu := (constructClient_ok _ _ _ _ h).1
  have he : c._moodleUrl = moodleBaseUrlCoerce u := validateBaseUrl_ok_eq _ _ hu
  constructor
  · intro hf; rw [he]; simp [moodleBaseUrlCoerce, hf]
  · intro hT; rw [he]; simp [moodleBaseUrlCoerce, hT]

theorem moodle_C6_witness :
    strEndsWith "https://localhost" "/" = false ∧
    exampleClient._moodleUrl = "https://localhost" ++ "/" := by
  have h := moodle_C6_baseUrl_trailing_separator "https://localhost" zeroToken none
    exampleClient rfl
  exact ⟨rfl, h.1 rfl⟩

/-- C7: when the options bag, or an individual option key, is omitted, the
stored options are defaulted: `acceptUntrustedTLSCert` to `false`,
`dataFormat` to `'json'`, `timeout` to `5000` milliseconds. -/
theorem moodle_C7_option_defaults (u t : String) (c : MoodleWSClient) :
    (constructClient (some u) (some t) none = .ok c →
      c._options = ⟨some false, some "json", some (.numV 5000)⟩) ∧
    (∀ opts, constructClient (some u) (some t) (some opts) = .ok c →
      (opts.acceptUntrustedTLSCert = none → c._options.acceptUntrustedTLSCert = some false) ∧
      (opts.dataFormat = none → c._options.dataFormat = some "json") ∧
      (opts.timeout = none → c._options.timeout = some (.numV 5000))) := by
  constructor
  · intro h
    have ho := (constructClient_ok _ _ _ _ h).2.2.1
    rw [ho]; rfl
  · intro opts h
    have ho := (constructClient_ok _ _ _ _ h).2.2.1
    refine ⟨?_, ?_, ?_⟩ <;> intro hf <;> rw [ho] <;> simp [coerceOptions, hf]

theorem moodle_C7_witness :
    exampleClient._options = ⟨some false, some "json", some (.numV 5000)⟩ :=
  (moodle_C7_option_defaults "https://localhost" zeroToken exampleClient).1 rfl

/-- C8: for every constructed client instance, `apiUrl()` equals
`moodleUrl()` concatenated with the fixed constant API path segment; both
accessors are total functions of the instance (pure, no I/O, no failure
mode). -/
theorem moodle_C8_apiUrl_concat (c : MoodleWSClient) :
    apiUrl c = moodleUrl c ++ MOODLE_API_PATH := rfl

/-- C3 (code bug): the source's token pattern `[a-z0-9]{32}` accepts the
non-hexadecimal token `gToken`, and construction with it succeeds, although
the constraint's own error message ("must be a 32 character lower-case hex
string"), the `MoodleToken` typedef, and the claim all require construction
to fail for tokens that are not 32 lowercase hex characters. -/
theorem moodle_C3_token_pattern_bug :
    specLowerHex32 gToken = false ∧
    tokenFormat gToken = true ∧
    constructClient (some "https://localhost/") (some gToken) none =
      .ok ⟨"https://localhost/", gToken, ⟨some false, some "json", some (.numV 5000)⟩, []⟩ :=
  ⟨rfl, rfl, rfl⟩

/-- C9: in `submit('get', 'CORE_Fn', {})` the validated method is `'GET'`
and the validated function name is `'core_fn'`; in general the `httpMethod`
constraint upper-cases string input, defaults empty input to `'GET'` and only
accepts `GET`, `POST` or `PUT` after coercion, while the `wsFunctionName`
constraint lower-cases its input and requires a full `[a-z_]+` match. -/
theorem moodle_C9_method_function_coercion :
    validateHttpMethod (some "get") = .ok "GET" ∧
    validateWsFunctionName (some "CORE_Fn") = .ok "core_fn" ∧
    validateHttpMethod none = .ok "GET" ∧
    validateHttpMethod (some "") = .ok "GET" ∧
    (∀ s m, validateHttpMethod (some s) = .ok m →
      m = "GET" ∨ m = "POST" ∨ m = "PUT") ∧
    (∀ s m, isEmptyString s = false → validateHttpMethod (some s) = .ok m →
      m = httpMethodCoerce s) ∧
    (∀ s m, validateWsFunctionName (some s) = .ok m →
      m = wsFunctionNameCoerce s ∧ wsFunctionNameFormat m = true) := by
  refine ⟨rfl, rfl, rfl, rfl, ?_, ?_, ?_⟩
  · intro s m h
    simp only [validateHttpMethod] at h
    split at h <;>
    · split at h
      next hfmt =>
        have hm := Except.ok.inj h
        subst hm
        simp only [httpMethodFormat, Bool.or_eq_true, beq_iff_eq] at hfmt
        tauto
      next => exact absurd h (by simp)
  · intro s m hemp h
    simp only [validateHttpMethod, hemp, Bool.false_eq_true, if_false] at h
    split at h
    next =>
      have hm := Except.ok.inj h
      exact hm.symm
    next => exact absurd h (by simp)
  · intro s m h
    simp only [validateWsFunctionName] at h
    split at h
    next hfmt =>
      have hm := Except.ok.inj h
      subst hm
      exact ⟨rfl, hfmt⟩
    next => exact absurd h (by simp)

theorem moodle_C9_witness :
    ("GET" = "GET" ∨ "GET" = "POST" ∨ "GET" = "PUT") ∧
    "POST" = httpMethodCoerce "post" ∧
    ("core_fn" = wsFunctionNameCoerce "CORE_Fn" ∧ wsFunctionNameFormat "core_fn" = true) := by
  have h := moodle_C9_method_function_coercion
  exact ⟨h.2.2.2.2.1 "get" "GET" rfl, h.2.2.2.2.2.1 "post" "POST" rfl rfl,
    h.2.2.2.2.2.2 "CORE_Fn" "core_fn" rfl⟩

/-- C1 (counterexample): a caller-supplied `wstoken` entry of the
`wsParameters` dictionary survives submit's validation and replaces the
client's stored token in the built query map, so the claim that no
caller-supplied entry can replace the token key is false on the code. -/
theorem moodle_C1_counterexample :
    submitValidate (some "get") (some "core_fn") (some [("wstoken", JSVal.str "evil")]) =
      .ok ("GET", "core_fn", [("wstoken", JSVal.str "evil")]) ∧
    getKey (submitBuild exampleClient "GET" "core_fn" [("wstoken", JSVal.str "evil")]).qs
      "wstoken" = some (JSVal.str "evil") ∧
    JSVal.str "evil" ≠ JSVal.str exampleClient._token := by
  refine ⟨rfl, rfl, ?_⟩
  intro hcontra
  exact absurd (JSVal.str.inj hcontra) (by decide)

/-- C1 (amended): the query map of the built request contains the stored
token under `wstoken` and the validated function name under `wsfunction`
whenever the caller supplies no entry under those keys (and the stored data
format under `moodlewsrestformat` when that key is absent); but every
caller-supplied entry — including entries under the token and function-name
keys — replaces the fixed value, because the merge loop runs after the fixed
keys are written. -/
theorem moodle_C1_amended_query_merge (c : MoodleWSClient) (m fn : String) (qp : ObjMap)
    (hnd : noDupKeys qp = true) :
    (getKey qp "wstoken" = none →
      getKey (submitBuild c m fn qp).qs "wstoken" = some (JSVal.str c._token)) ∧
    (getKey qp "wsfunction" = none →
      getKey (submitBuild c m fn qp).qs "wsfunction" = some (JSVal.str fn)) ∧
    (getKey qp "moodlewsrestformat" = none →
      getKey (submitBuild c m fn qp).qs "moodlewsrestformat" =
        some (jsStrField c._options.dataFormat)) ∧
    (∀ k v, getKey qp k = some v → getKey (submitBuild c m fn qp).qs k = some v) := by
  refine ⟨?_, ?_, ?_, ?_⟩
  · intro h0
    show getKey (mergeInto
      [("wstoken", JSVal.str c._token), ("wsfunction", JSVal.str fn),
       ("moodlewsrestformat", jsStrField c._options.dataFormat)] qp) "wstoken" = _
    rw [getKey_mergeInto_of_none qp _ _ h0]
    rfl
  · intro h0
    show getKey (mergeInto
      [("wstoken", JSVal.str c._token), ("wsfunction", JSVal.str fn),
       ("moodlewsrestformat", jsStrField c._options.dataFormat)] qp) "wsfunction" = _
    rw [getKey_mergeInto_of_none qp _ _ h0]
    rfl
  · intro h0
    show getKey (mergeInto
      [("wstoken", JSVal.str c._token), ("wsfunction", JSVal.str fn),
       ("moodlewsrestformat", jsStrField c._options.dataFormat)] qp) "moodlewsrestformat" = _
    rw [getKey_mergeInto_of_none qp _ _ h0]
    rfl
  · intro k v hkv
    exact getKey_mergeInto_of_some qp _ k v hnd hkv

theorem moodle_C1_amended_witness :
    getKey (submitBuild exampleClient "GET" "core_fn" [("courseid", JSVal.num 5)]).qs
      "wstoken" = some (JSVal.str exampleClient._token) ∧
    getKey (submitBuild exampleClient "GET" "core_fn" [("courseid", JSVal.num 5)]).qs
      "courseid" = some (JSVal.num 5) := by
  have h := moodle_C1_amended_query_merge exampleClient "GET" "core_fn"
    [("courseid", JSVal.num 5)] rfl
  exact ⟨h.1 rfl, h.2.2.2 "courseid" (JSVal.num 5) rfl⟩

/-- C2 (code bug): on a constructed client, `submit('get','core_fn',{})`
evaluates to undefined — the function body has no return statement, so the
request object it builds is discarded — and the `uri` field of that built
object holds the `apiUrl` method itself (`uri: this.apiUrl`, no call), not
the endpoint URL string; the method, TLS flag and timeout of the built object
do match the claim. -/
theorem moodle_C2_submit_drops_descriptor :
    submit exampleClient (some "get") (some "core_fn") (some []) = .ok none ∧
    (submitBuild exampleClient "GET" "core_fn" []).uri = UriVal.fnRef ∧
    UriVal.fnRef ≠ UriVal.strVal (apiUrl exampleClient) ∧
    (submitBuild exampleClient "GET" "core_fn" []).method = "GET" ∧
    (submitBuild exampleClient "GET" "core_fn" []).strictSSL =
      !(exampleClient._options.acceptUntrustedTLSCert.getD false) ∧
    (submitBuild exampleClient "GET" "core_fn" []).timeout = some (.numV 5000) := by
  refine ⟨rfl, rfl, ?_, rfl, rfl, rfl⟩
  intro hcontra
  exact UriVal.noConfusion hcontra

/-- C4 (counterexample): on the registered example client the shortcut call
`getUsers({courseid:5})` validates its arguments and then evaluates to
undefined (`.ok none`) — the bound `submit` has no return statement — so the
call does not produce the request descriptor the claim states: undefined is
not the descriptor submit internally builds (nor any descriptor). -/
theorem moodle_C4_counterexample :
    registerShortcut exampleClient (some "getUsers") (some "get")
      (some "core_user_get_users") =
      .ok { exampleClient with shortcuts := [("getUsers", "GET", "core_user_get_users")] } ∧
    callShortcut { exampleClient with
        shortcuts := [("getUsers", "GET", "core_user_get_users")] } "getUsers"
      [("courseid", JSVal.num 5)] = .ok none ∧
    (Option.none : Option ReqOpts) ≠
      some (submitBuild { exampleClient with
          shortcuts := [("getUsers", "GET", "core_user_get_users")] }
        "GET" "core_user_get_users" [("courseid", JSVal.num 5)]) := by
  refine ⟨rfl, rfl, ?_⟩
  intro hcontra
  exact Option.noConfusion hcontra

/-- C4 (amended): after `registerShortcut('getUsers','get','core_user_get_users')`
the instance carries a `getUsers` binding for `('GET','core_user_get_users')`
and the fluent return value is the instance itself (the same fields, extended
only by the new binding); invoking the shortcut with `{courseid:5}` validates
the bound arguments and internally builds a request object with method
`'GET'` and a query map containing `wsfunction`, `courseid`, the instance's
token and its data format — but, because `submit` has no return statement,
the call itself evaluates to undefined instead of producing that
descriptor. -/
theorem moodle_C4_registerShortcut_binding (c c2 : MoodleWSClient)
    (h : registerShortcut c (some "getUsers") (some "get") (some "core_user_get_users") =
      .ok c2) :
    c2 = { c with shortcuts := ("getUsers", "GET", "core_user_get_users") :: c.shortcuts } ∧
    getShortcut c2 "getUsers" = some ("GET", "core_user_get_users") ∧
    callShortcut c2 "getUsers" [("courseid", JSVal.num 5)] = .ok none ∧
    (submitBuild c2 "GET" "core_user_get_users" [("courseid", JSVal.num 5)]).method =
      "GET" ∧
    getKey (submitBuild c2 "GET" "core_user_get_users" [("courseid", JSVal.num 5)]).qs
      "wsfunction" = some (JSVal.str "core_user_get_users") ∧
    getKey (submitBuild c2 "GET" "core_user_get_users" [("courseid", JSVal.num 5)]).qs
      "courseid" = some (JSVal.num 5) ∧
    getKey (submitBuild c2 "GET" "core_user_get_users" [("courseid", JSVal.num 5)]).qs
      "wstoken" = some (JSVal.str c._token) ∧
    getKey (submitBuild c2 "GET" "core_user_get_users" [("courseid", JSVal.num 5)]).qs
      "moodlewsrestformat" = some (jsStrField c._options.dataFormat) := by
  have hreg : registerShortcut c (some "getUsers") (some "get")
      (some "core_user_get_users") =
      .ok { c with shortcuts := ("getUsers", "GET", "core_user_get_users") :: c.shortcuts } :=
    rfl
  rw [hreg] at h
  have hc2 := Except.ok.inj h
  subst hc2
  exact ⟨rfl, rfl, rfl, rfl, rfl, rfl, rfl, rfl⟩

theorem moodle_C4_witness :
    getShortcut { exampleClient with
        shortcuts := [("getUsers", "GET", "core_user_get_users")] } "getUsers" =
      some ("GET", "core_user_get_users") ∧
    (submitBuild { exampleClient with
        shortcuts := [("getUsers", "GET", "core_user_get_users")] }
      "GET" "core_user_get_users" [("courseid", JSVal.num 5)]).method = "GET" := by
  have h := moodle_C4_registerShortcut_binding exampleClient
    { exampleClient with shortcuts := [("getUsers", "GET", "core_user_get_users")] } rfl
  exact ⟨h.2.1, h.2.2.2.1⟩

theorem checkOptions_ok_parts (v : OptionsObj) (h : checkOptions v = .ok ()) :
    (∃ b, v.acceptUntrustedTLSCert = some b) ∧
    (∃ s, v.dataFormat = some s ∧ wsDataFormatFormat s = true) ∧
    (∃ tv2, v.timeout = some tv2 ∧ timeoutCheck tv2 = true) := by
  obtain ⟨va, vd, vt⟩ := v
  cases va with
  | none => exact absurd h (by simp [checkOptions])
  | some b =>
    cases vd with
    | none => exact absurd h (by simp [checkOptions])
    | some s =>
      cases vt with
      | none =>
        by_cases hF : wsDataFormatFormat s = true
        · exact absurd h (by simp [checkOptions, hF])
        · exact absurd h (by simp [checkOptions, hF])
      | some tv2 =>
        by_cases hF : wsDataFormatFormat s = true
        · by_cases hT : timeoutCheck tv2 = true
          · exact ⟨⟨b, rfl⟩, ⟨s, rfl, hF⟩, ⟨tv2, rfl, hT⟩⟩
          · exact absurd h (by simp [checkOptions, hF, hT])
        · exact absurd h (by simp [checkOptions, hF])

/-- C5: for every timeout option that is a duration descriptor resolving to a
positive whole number of milliseconds, the constructed client's stored
timeout equals that count; for every descriptor resolving to zero or a
negative count (on an otherwise valid construction), construction fails with
`InvalidDuration`. -/
theorem moodle_C5_timeout_resolution (u t : String) (a : Option Bool) (d : Option String)
    (tv : TimeoutVal) (n : Int) (hres : resolvedMs tv = some n) :
    (∀ c, constructClient (some u) (some t) (some ⟨a, d, some tv⟩) = .ok c →
      c._options.timeout = some (.numV n)) ∧
    (n ≤ 0 → ∀ c0, constructClient (some u) (some t) (some ⟨a, d, none⟩) = .ok c0 →
      constructClient (some u) (some t) (some ⟨a, d, some tv⟩) =
        .error .invalidDuration) := by
  constructor
  · intro c h
    have ho := (constructClient_ok _ _ _ _ h).2.2.1
    have hchk := (constructClient_ok _ _ _ _ h).2.2.2.1
    simp only [Option.getD_some] at ho
    rw [ho] at hchk
    rw [ho]
    have htv : (coerceOptions ⟨a, d, some tv⟩).timeout = some (timeoutCoerce tv) := rfl
    rw [htv]
    have hT : timeoutCheck (timeoutCoerce tv) = true := by
      obtain ⟨_, _, tv2, htv2, hT2⟩ := checkOptions_ok_parts _ hchk
      have heq : timeoutCoerce tv = tv2 := Option.some.inj (htv.symm.trans htv2)
      rw [heq]
      exact hT2
    cases tv with
    | numV k =>
      have hk : k = n := Option.some.inj hres
      subst hk
      rfl
    | nan => exact absurd hres (by simp [resolvedMs])
    | momentDur k =>
      have hk : k = n := Option.some.inj hres
      subst hk
      rfl
    | descriptor k =>
      have hk : k = n := Option.some.inj hres
      subst hk
      by_cases hpos : 0 < k
      · simp [timeoutCoerce, hpos]
      · rw [show timeoutCoerce (.descriptor k) = .nan by simp [timeoutCoerce, hpos]] at hT
        exact absurd hT (by simp [timeoutCheck])
  · intro hn c0 h0
    have hu := (constructClient_ok _ _ _ _ h0).1
    have ht := (constructClient_ok _ _ _ _ h0).2.1
    have hchk := (constructClient_ok _ _ _ _ h0).2.2.2.1
    rw [(constructClient_ok _ _ _ _ h0).2.2.1] at hchk
    simp only [Option.getD_some] at hchk
    obtain ⟨_, ⟨s, hs, hF⟩, _⟩ := checkOptions_ok_parts _ hchk
    have hTF : timeoutCheck (timeoutCoerce tv) = false := by
      cases tv with
      | numV k =>
        have hk : k = n := Option.some.inj hres
        subst hk
        simp only [timeoutCoerce, timeoutCheck, decide_eq_false_iff_not]
        omega
      | nan => exact absurd hres (by simp [resolvedMs])
      | momentDur k =>
        have hk : k = n := Option.some.inj hres
        subst hk
        simp only [timeoutCoerce, timeoutCheck, decide_eq_false_iff_not]
        omega
      | descriptor k =>
        have hk : k = n := Option.some.inj hres
        subst hk
        have hnpos : ¬ 0 < k := by omega
        simp [timeoutCoerce, hnpos, timeoutCheck]
    have hco : checkOptions (coerceOptions ⟨a, d, some tv⟩) = .error .invalidDuration := by
      have hsd := Option.some.inj hs
      simp only [checkOptions, coerceOptions] at hsd ⊢
      rw [hsd, if_pos hF, if_neg (by rw [hTF]; exact Bool.false_ne_true)]
    unfold constructClient
    simp only [hu, ht, Option.getD_some, hco]

theorem moodle_C5_witness :
    resolvedMs (.momentDur 250) = some 250 ∧
    (⟨"https://localhost/", zeroToken, ⟨some false, some "json", some (.numV 250)⟩,
        []⟩ : MoodleWSClient)._options.timeout = some (.numV 250) := by
  have h := moodle_C5_timeout_resolution "https://localhost/" zeroToken none none
    (.momentDur 250) 250 rfl
  exact ⟨rfl, h.1 _ rfl⟩

/-- C10: the constructor mutates the caller-supplied options object in place
— writing the `acceptUntrustedTLSCert`, `dataFormat` and `timeout` keys with
their defaulted or coerced values — leaves every other heap cell untouched,
and stores the address of that same object as the client's configuration, so
the caller's object and the client's stored options are shared, not copied. -/
theorem moodle_C10_options_object_shared (h : Heap) (url? token? : Option String)
    (r : Nat) (c : MoodleWSClientRef)
    (hok : (constructClientHeap h url? token? r).1 = .ok c) :
    c._options = r ∧
    (constructClientHeap h url? token? r).2 r = coerceOptions (h r) ∧
    (∀ i, i ≠ r → (constructClientHeap h url? token? r).2 i = h i) ∧
    ((h r).acceptUntrustedTLSCert = none →
      ((constructClientHeap h url? token? r).2 r).acceptUntrustedTLSCert = some false) ∧
    ((h r).dataFormat = none →
      ((constructClientHeap h url? token? r).2 r).dataFormat = some "json") ∧
    ((h r).timeout = none →
      ((constructClientHeap h url? token? r).2 r).timeout = some (.numV 5000)) := by
  unfold constructClientHeap at hok
  cases hu : validateBaseUrl url? with
  | error e => rw [hu] at hok; exact absurd hok (by simp)
  | ok u =>
    rw [hu] at hok
    cases ht : validateToken token? with
    | error e => simp only [ht] at hok; exact absurd hok (by simp)
    | ok t =>
      simp only [ht] at hok
      cases hc : checkOptions (coerceOptions (h r)) with
      | error e => simp only [hc] at hok; exact absurd hok (by simp)
      | ok unitv =>
        cases unitv
        simp only [hc] at hok
        have hceq : c = ⟨u, t, r⟩ := (Except.ok.inj hok).symm
        subst hceq
        have heq : constructClientHeap h url? token? r =
            ((.ok ⟨u, t, r⟩ : Except VErr MoodleWSClientRef),
              hUpdate h r (coerceOptions (h r))) := by
          unfold constructClientHeap
          simp only [hu, ht, hc]
        rw [heq]
        refine ⟨rfl, ?_, ?_, ?_, ?_, ?_⟩
        · show hUpdate h r (coerceOptions (h r)) r = coerceOptions (h r)
          simp [hUpdate]
        · intro i hi
          show hUpdate h r (coerceOptions (h r)) i = h i
          simp [hUpdate, hi]
        · intro hf
          show (hUpdate h r (coerceOptions (h r)) r).acceptUntrustedTLSCert = some false
          simp [hUpdate, coerceOptions, hf]
        · intro hf
          show (hUpdate h r (coerceOptions (h r)) r).dataFormat = some "json"
          simp [hUpdate, coerceOptions, hf]
        · intro hf
          show (hUpdate h r (coerceOptions (h r)) r).timeout = some (.numV 5000)
          simp [hUpdate, coerceOptions, hf]

theorem moodle_C10_witness :
    (⟨"https://localhost/", zeroToken, 0⟩ : MoodleWSClientRef)._options = 0 ∧
    (constructClientHeap heap0 (some "https://localhost/") (some zeroToken) 0).2 0 =
      coerceOptions (heap0 0) ∧
    (1 ≠ 0 →
      (constructClientHeap heap0 (some "https://localhost/") (some zeroToken) 0).2 1 =
        heap0 1) := by
  have h := moodle_C10_options_object_shared heap0 (some "https://localhost/")
    (some zeroToken) 0 ⟨"https://localhost/", zeroToken, 0⟩ rfl
  exact ⟨h.1, h.2.1, fun hne => h.2.2.1 1 hne⟩

